import Mathlib

/-!
Shallow embedding of the range-vs-range betting engine core
(`src/rvr/core/api.py`): the game state machine that applies resolved
action results, finishes betting rounds, deals the board, records hand
history, validates submitted range actions, and times out idle players.

The collaborator modules `rvr.poker.action`, `rvr.poker.cards`,
`rvr.poker.handrange` and parts of `rvr.core.dtos` are imported by
`api.py` but their sources are not part of this tree; those definitions
are modelled from the specification and say so in their doc comments.
All other definitions are translated directly from `api.py`.
-/

namespace RVR

/-- A playing card. The engine never inspects ranks or suits in the code
under verification, so cards are abstract identifiers. -/
abbrev Card := Nat

/-- A combination of two hole cards (higher card, lower card), as stored
in a range. -/
abbrev Combo := Card × Card

/-- A hand range: a set of combinations, embedded as a list. -/
abbrev HandRange := List Combo

/-- Boolean membership test, embedding Python's `in`. -/
def bmem {a : Type} [DecidableEq a] (x : a) (l : List a) : Bool :=
  decide (x ∈ l)

/-- The four streets (`PREFLOP`, `FLOP`, `TURN`, `RIVER` from
`rvr.poker.action`). -/
inductive Street
  | preflop
  | flop
  | turn
  | river
deriving DecidableEq, Repr

/-- Modelled from the spec: `NEXT_ROUND` from `rvr.poker.action` (source
not in tree) maps each street to the next one; the river has no
successor (looking one up is an error), and the call sites never advance
past the river. -/
def NEXT_ROUND : Street → Option Street
  | .preflop => some .flop
  | .flop => some .turn
  | .turn => some .river
  | .river => none

/-- Modelled from the spec: `TOTAL_COMMUNITY_CARDS` from
`rvr.poker.action` (source not in tree) gives each street's required
board card count (spec section 4.4: "board is dealt up to the new
street's required card count"). -/
def TOTAL_COMMUNITY_CARDS : Street → Nat
  | .preflop => 0
  | .flop => 3
  | .turn => 4
  | .river => 5

/-- A concrete resolved outcome (`ActionResult` from `rvr.core.dtos`,
source not in tree; flags as used by `api.py`): exactly one of fold,
passive, aggressive or terminate is set by its constructors. -/
structure ActionResult where
  is_fold : Bool
  is_passive : Bool
  is_aggressive : Bool
  call_cost : Int
  raise_total : Int
  is_raise : Bool
  is_terminate : Bool
deriving DecidableEq, Repr

/-- A range-based action (`dtos.ActionDetails`): the proposed partition
of the acting seat's range, plus a raise total. -/
structure RangeAction where
  fold_range : HandRange
  passive_range : HandRange
  aggressive_range : HandRange
  raise_total : Int
deriving DecidableEq, Repr

/-- One seat of a running game (`tables.RunningGameParticipant` as used
by `api.py`). -/
structure Rgp where
  userid : Nat
  order : Nat
  stack : Int
  contributed : Int
  range : HandRange
  left_to_act : Bool
  folded : Bool
  cards_dealt : List Card
deriving DecidableEq, Repr

/-- A hand-history child record (the `GameHistory*` tables written by
`api.py`'s `_record_*` helpers), as a tagged union. -/
inductive HistoryItem
  | userRange (userid : Nat) (r : HandRange)
  | rangeAction (userid : Nat) (fold_range passive_range aggressive_range : HandRange)
      (raise_total : Int) (is_check : Bool) (is_raise : Bool)
  | actionResult (userid : Nat) (ar : ActionResult)
  | board (street : Street) (cards : List Card)
  | timeoutItem (userid : Nat)
deriving DecidableEq, Repr

/-- A running game (`tables.RunningGame` as used by `api.py`).

The `big_blind` field inlines `game.situation.big_blind`; the `deck`
field models the randomness consumed by the card dealer (the deal takes
the first fresh cards of `deck`); `history` holds the game's
`GameHistoryBase` rows as (order, item) pairs. -/
structure RunningGame where
  gameid : Nat
  next_hh : Nat
  current_userid : Option Nat
  board : List Card
  current_round : Street
  pot_pre : Int
  increment : Int
  bet_count : Nat
  is_finished : Bool
  big_blind : Int
  rgps : List Rgp
  deck : List Card
  last_action_time : Int
  history : List (Nat × HistoryItem)
deriving DecidableEq, Repr

/-- Apply an update to every seat of the game whose order is `o` (in a
well-formed game, orders are unique so this is the acting seat). -/
def updateRgp (g : RunningGame) (o : Nat) (f : Rgp → Rgp) : RunningGame :=
  { g with rgps := g.rgps.map (fun r => if r.order = o then f r else r) }

/-- Modelled from the spec: `act_fold` from `rvr.poker.action` (source
not in tree); spec section 4.4: "Applying a fold: seat marked folded,
removed from left-to-act pool." -/
def act_fold (g : RunningGame) (o : Nat) : RunningGame :=
  updateRgp g o (fun r => { r with folded := true, left_to_act := false })

/-- Modelled from the spec: `act_passive` from `rvr.poker.action`
(source not in tree); spec section 4.4: "seat's contributed-this-round
raised to match the current bet; left_to_act cleared for that seat" —
the call cost moves from stack to contributed. -/
def act_passive (g : RunningGame) (o : Nat) (call_cost : Int) : RunningGame :=
  updateRgp g o (fun r =>
    { r with stack := r.stack - call_cost,
             contributed := r.contributed + call_cost,
             left_to_act := false })

/-- Modelled from the spec: `act_aggressive` from `rvr.poker.action`
(source not in tree); spec section 4.4: "seat's contributed-this-round
set to raise_total; every other non-folded seat's left_to_act is reset
to true; bet_count incremented", and the acting seat has acted so its
own left_to_act flips false (spec section 3). -/
def act_aggressive (g : RunningGame) (o : Nat) (raise_total : Int) : RunningGame :=
  { g with
    bet_count := g.bet_count + 1,
    rgps := g.rgps.map (fun r =>
      if r.order = o then
        { r with stack := r.stack - (raise_total - r.contributed),
                 contributed := raise_total,
                 left_to_act := false }
      else if r.folded then r
      else { r with left_to_act := true }) }

/-- Modelled from the spec: `deal_cards` from `rvr.poker.cards` (source
not in tree); spec section 6: "a deterministic-but-unpredictable card
dealer (excluding a given card set)". Deals the first `n` cards of the
deck that are not excluded. -/
def deal_cards (deck : List Card) (excluded : List Card) (n : Nat) : List Card :=
  (deck.filter (fun c => !(bmem c excluded))).take n

/-- Modelled from the spec: `remove_board_from_range` from
`rvr.poker.handrange` (source not in tree); spec section 3: a range
"must always be disjoint from the current community board (cards on the
board can never remain in any player's range)". -/
def remove_board_from_range (r : HandRange) (board : List Card) : HandRange :=
  r.filter (fun c => !(bmem c.1 board) && !(bmem c.2 board))

/-- Embeds `API._record_hand_history_item`: create a base row whose order is
the game's `next_hh` counter, then increment the counter. -/
def record_hand_history_item (g : RunningGame) (item : HistoryItem) : RunningGame :=
  { g with history := g.history ++ [(g.next_hh, item)],
           next_hh := g.next_hh + 1 }

/-- Embeds `API._record_board`: record the current board at the current
street. -/
def record_board (g : RunningGame) : RunningGame :=
  record_hand_history_item g (.board g.current_round g.board)

/-- Embeds `API._record_action_result`: refuses a terminate result ("Only real
actions are supported."); otherwise records the result and refreshes the
game's last action time. -/
def record_action_result (g : RunningGame) (u : Nat) (ar : ActionResult)
    (now : Int) : Option RunningGame :=
  if ar.is_terminate then none
  else some { record_hand_history_item g (.actionResult u ar) with
              last_action_time := now }

/-- Embeds `API._record_rgp_range`: record the seat's current range. -/
def record_rgp_range (g : RunningGame) (u : Nat) (r : HandRange) : RunningGame :=
  record_hand_history_item g (.userRange u r)

/-- Embeds `API._record_range_action`: record the submitted range action. -/
def record_range_action (g : RunningGame) (u : Nat) (ra : RangeAction)
    (is_check : Bool) (is_raise : Bool) : RunningGame :=
  record_hand_history_item g
    (.rangeAction u ra.fold_range ra.passive_range ra.aggressive_range
      ra.raise_total is_check is_raise)

/-- Embeds `API._record_timeoout` (source spelling): record a timeout for the
seat. -/
def record_timeoout (g : RunningGame) (u : Nat) : RunningGame :=
  record_hand_history_item g (.timeoutItem u)

/-- Embeds `API._deal_to_board`: deal as many cards as are needed to bring the
board up to the current round, excluding every seat's dealt cards and
the existing board; record the board if cards were dealt; then remove
the board from every seat's range. -/
def deal_to_board (g : RunningGame) : RunningGame :=
  let total := TOTAL_COMMUNITY_CARDS g.current_round
  let current := g.board.length
  let excluded_cards := (g.rgps.map (fun r => r.cards_dealt)).flatten ++ g.board
  let new_board := g.board ++ deal_cards g.deck excluded_cards (total - current)
  let g1 := { g with board := new_board }
  let g2 := if current < total then record_board g1 else g1
  { g2 with rgps := g2.rgps.map (fun r =>
      { r with range := remove_board_from_range r.range g2.board }) }

/-- First element of a list of seats minimising `order` (Python
`min(..., key=lambda p: p.order)`; errors on an empty list). -/
def minByOrder : List Rgp → Option Rgp
  | [] => none
  | r :: rs => some (rs.foldl (fun acc p => if p.order < acc.order then p else acc) r)

/-- Embeds `API._finish_betting_round`: pass the turn to the earliest remaining
seat, advance the street, deal the board, reset the increment to the big
blind and the bet count to zero, then sweep every seat's contributed
chips into the pot and set every non-folded seat back to left-to-act. -/
def finish_betting_round (g : RunningGame) (remain : List Rgp) : Option RunningGame :=
  match minByOrder remain with
  | none => none
  | some current_user =>
    match NEXT_ROUND g.current_round with
    | none => none
    | some next_round =>
      let g1 := { g with current_userid := some current_user.userid,
                         current_round := next_round }
      let g2 := deal_to_board g1
      let g3 := { g2 with increment := g.big_blind, bet_count := 0 }
      some { g3 with
             pot_pre := g3.rgps.foldl (fun acc r => acc + r.contributed) g3.pot_pre,
             rgps := g3.rgps.map (fun r =>
               if r.folded then { r with contributed := 0 }
               else { r with contributed := 0, left_to_act := true }) }

/-- The dispatch on the action result's kind at the top of
`API.apply_action_result`: fold, passive or aggressive is applied; any
other result ("terminate must not be passed here") is a `ValueError`. -/
def act_step (g : RunningGame) (o : Nat) (ar : ActionResult) : Option RunningGame :=
  if ar.is_fold then some (act_fold g o)
  else if ar.is_passive then some (act_passive g o ar.call_cost)
  else if ar.is_aggressive then some (act_aggressive g o ar.raise_total)
  else none

/-- The second half of `API.apply_action_result`: decide, from the
left-to-act and remaining seats, whether the hand finishes, the betting
round finishes, or the turn passes to the next seat. -/
def advance_step (g : RunningGame) (o : Nat) : Option RunningGame :=
  let left_to_act := g.rgps.filter (fun p => p.left_to_act)
  let remain := g.rgps.filter (fun p => !p.left_to_act && !p.folded)
  if left_to_act.length = 1 ∧ remain = [] then
    some { g with is_finished := true }
  else if left_to_act = [] then
    if remain.length = 1 ∨ g.current_round = Street.river then
      some { g with is_finished := true }
    else
      finish_betting_round g remain
  else
    let later := left_to_act.filter (fun p => o < p.order)
    let earlier := left_to_act.filter (fun p => p.order < o)
    let chosen := if later.isEmpty then earlier else later
    match minByOrder chosen with
    | none => none
    | some next_rgp => some { g with current_userid := some next_rgp.userid }

/-- Embeds `API.apply_action_result`: apply the concrete action for the seat
with order `o`, then advance the game state. -/
def apply_action_result (g : RunningGame) (o : Nat) (ar : ActionResult) :
    Option RunningGame :=
  (act_step g o ar).bind (fun g1 => advance_step g1 o)

/-- The legal action envelope (`CurrentOptions` from `rvr.core.dtos`;
`can_check` is a method there, embedded as a field). -/
structure CurrentOptions where
  can_check : Bool
  is_raise : Bool
  can_raise : Bool
  min_raise_total : Int
  max_raise_total : Int
deriving DecidableEq, Repr

/-- The highest contribution this round, the amount the acting seat must
match. -/
def max_contributed (g : RunningGame) : Int :=
  g.rgps.foldl (fun acc r => max acc r.contributed) 0

/-- Modelled from the spec: `calculate_current_options` from
`rvr.poker.action` (source not in tree); spec section 4.1: can_check iff
the seat's contribution equals the required contribution; is_raise iff a
bet was already made this round; minimum raise is the previous total
plus the increment; maximum is the seat's stack plus its contribution;
can_raise iff the maximum exceeds the required contribution (the limit
cap is outside the spec's core). -/
def calculate_current_options (g : RunningGame) (actor : Rgp) : CurrentOptions :=
  let req := max_contributed g
  { can_check := decide (actor.contributed = req),
    is_raise := decide (0 < g.bet_count),
    can_raise := decide (req < actor.stack + actor.contributed),
    min_raise_total := req + g.increment,
    max_raise_total := actor.stack + actor.contributed }

/-- Boolean containment of one range in another. -/
def range_subset (a b : HandRange) : Bool :=
  a.all (fun c => bmem c b)

/-- Boolean disjointness of two ranges. -/
def range_disjoint (a b : HandRange) : Bool :=
  a.all (fun c => !(bmem c b))

/-- Modelled from the spec: the partition check of `range_action_fits`
(spec section 4.2): the three sub-ranges exactly cover the seat's
current range, every combo in exactly one of them. -/
def exact_partition (f p a r : HandRange) : Bool :=
  range_subset (f ++ p ++ a) r && range_subset r (f ++ p ++ a) &&
  range_disjoint f p && range_disjoint f a && range_disjoint p a

/-- Modelled from the spec: `range_action_fits` from `rvr.poker.action`
(source not in tree); spec section 4.2: fails unless the sub-ranges are
an exact partition of the current range; with a non-empty aggressive
sub-range the raise total must lie in the legal interval and raising
must be allowed; with an empty aggressive sub-range the raise total must
be zero. -/
def range_action_fits (ra : RangeAction) (opts : CurrentOptions)
    (r : HandRange) : Bool :=
  exact_partition ra.fold_range ra.passive_range ra.aggressive_range r &&
  (if ra.aggressive_range.isEmpty then decide (ra.raise_total = 0)
   else opts.can_raise && decide (opts.min_raise_total ≤ ra.raise_total) &&
        decide (ra.raise_total ≤ opts.max_raise_total))

/-- The outcome resolver (`WhatCouldBe` from `rvr.poker.action`, source
not in tree), abstracted as a pure function per spec section 4.3: from
the game, the acting seat, the range action and the options it produces
the single concrete ActionResult and the seat's reduced range. -/
abbrev Resolver :=
  RunningGame → Rgp → RangeAction → CurrentOptions → ActionResult × HandRange

/-- Modelled from the spec: `finish_game` from `rvr.poker.action`
(source not in tree); the game becomes terminal when no seat remains on
turn (spec section 3: current turn seat absent means the game is
finished). -/
def finish_game (g : RunningGame) : RunningGame :=
  { g with current_userid := none }

/-- Embeds `API._perform_action`: record the range action; resolve it; on a
terminate result, mark the game finished and clear the actor's
left-to-act flag without recording an action result; otherwise record
the action result and the actor's reduced range and apply the result;
finally, if the game is finished, finish it. Returns the updated game
and the resolved ActionResult. -/
def perform_action_inner (g : RunningGame) (actor : Rgp) (ra : RangeAction)
    (opts : CurrentOptions) (res : Resolver) (now : Int) :
    Option (RunningGame × ActionResult) :=
  let g1 := record_range_action g actor.userid ra opts.can_check opts.is_raise
  let pr := res g1 actor ra opts
  let ar := pr.1
  if ar.is_terminate then
    let g2 := updateRgp { g1 with is_finished := true } actor.order
      (fun r => { r with left_to_act := false })
    some (finish_game g2, ar)
  else
    let gr := updateRgp g1 actor.order (fun r => { r with range := pr.2 })
    match record_action_result gr actor.userid ar now with
    | none => none
    | some g3 =>
      let g4 := record_rgp_range g3 actor.userid pr.2
      match apply_action_result g4 actor.order ar with
      | none => none
      | some g5 => some ((if g5.is_finished then finish_game g5 else g5), ar)

/-- The errors `API.perform_action` can return. -/
inductive ApiErr
  | noSuchRunningGame
  | notUsersTurn
  | invalidRanges
  | internalError
deriving DecidableEq, Repr

/-- The first game with the given id (the session query's first
result). -/
def find_game (db : List RunningGame) (gameid : Nat) : Option RunningGame :=
  db.find? (fun g => decide (g.gameid = gameid))

/-- Embeds `game.current_rgp`: the participant whose userid is the game's
current userid. -/
def current_rgp (g : RunningGame) : Option Rgp :=
  match g.current_userid with
  | none => none
  | some u => g.rgps.find? (fun r => decide (r.userid = u))

/-- Write the updated game back over the game with the same id (the
session commit of the in-place mutation). -/
def store_game (db : List RunningGame) (g2 : RunningGame) : List RunningGame :=
  db.map (fun x => if x.gameid = g2.gameid then g2 else x)

/-- Embeds `API.perform_action`: look the game up, check it is the submitting
user's turn, check the range action fits the user's options and range,
and only then perform it. A validation failure (and, through the `api`
decorator's rollback, any internal failure) returns an error and leaves
the stored games unchanged. -/
def perform_action (db : List RunningGame) (gameid : Nat) (userid : Nat)
    (ra : RangeAction) (res : Resolver) (now : Int) :
    List RunningGame × Except ApiErr ActionResult :=
  match find_game db gameid with
  | none => (db, .error .noSuchRunningGame)
  | some g =>
    if g.current_userid = some userid then
      match current_rgp g with
      | none => (db, .error .internalError)
      | some rgp =>
        let opts := calculate_current_options g rgp
        if range_action_fits ra opts rgp.range then
          match perform_action_inner g rgp ra opts res now with
          | none => (db, .error .internalError)
          | some (g2, ar) => (store_game db g2, .ok ar)
        else (db, .error .invalidRanges)
    else (db, .error .notUsersTurn)

/-- Modelled from the spec: `NOTHING` from `rvr.poker.handrange` (source
not in tree) is the empty range. -/
def NOTHING : HandRange := []

/-- Embeds `API._timeout`: fold the current player's entire range — a range
action whose fold sub-range is the player's whole current range, with
empty passive and aggressive sub-ranges and raise total zero — record
the timeout, and perform the action. -/
def timeout (g : RunningGame) (res : Resolver) (now : Int) : Option RunningGame :=
  match current_rgp g with
  | none => none
  | some rgp =>
    let opts := calculate_current_options g rgp
    let range_action : RangeAction :=
      { fold_range := rgp.range, passive_range := NOTHING,
        aggressive_range := NOTHING, raise_total := 0 }
    let g1 := record_timeoout g rgp.userid
    (perform_action_inner g1 rgp range_action opts res now).map (fun p => p.1)

/-- The timeout threshold: seven days (`datetime.timedelta(days=7)`),
with times measured in days. -/
def TIMEOUT_DAYS : Int := 7

/-- Whether `API.process_timeouts` times a game out: it has a current
player and its last action is older than the threshold. -/
def timeout_due (g : RunningGame) (now : Int) : Bool :=
  g.current_userid.isSome && decide (g.last_action_time + TIMEOUT_DAYS < now)

/-- Embeds `API.process_timeouts`: time out every running game whose current
player has been idle past the threshold, and count them. A failure
inside any timeout aborts (and rolls back) the whole call. -/
def process_timeouts (db : List RunningGame) (res : Resolver) (now : Int) :
    Option (List RunningGame × Nat) :=
  db.foldl (fun acc g =>
    match acc with
    | none => none
    | some (out, n) =>
      if timeout_due g now then
        match timeout g res now with
        | none => none
        | some g2 => some (out ++ [g2], n + 1)
      else some (out ++ [g], n)) (some ([], 0))

/-- The history items sorted by order (`sorted(..., key=lambda c:
c.order)`). -/
def sort_by_order (l : List (Nat × HistoryItem)) : List (Nat × HistoryItem) :=
  l.mergeSort (fun a b => a.1 ≤ b.1)

/-- Embeds `API._get_history_items`: all child history items of the game,
sorted by order, keeping an item only if the game is finished or the
item should be included for the requesting user. The per-item predicate
`should_include_for` lives in `rvr.core.dtos` child classes whose source
is not in tree, so it is abstracted as the parameter `inc`. -/
def get_history_items (g : RunningGame) (userid : Option Nat)
    (inc : Nat × HistoryItem → Option Nat → Bool) : List (Nat × HistoryItem) :=
  (sort_by_order g.history).filter (fun e => g.is_finished || inc e userid)

/-- The spec's conserved quantity (spec section 8): the sum of
stack plus contributed over all seats, plus the pot. -/
def chip_sum (g : RunningGame) : Int :=
  (g.rgps.map (fun r => r.stack + r.contributed)).sum + g.pot_pre

/-- C9: within a game, hand-history records get strictly increasing
sequence numbers: each record receives order `next_hh` which is then
incremented, so two records written in succession have the earlier one's
order strictly below the later one's. -/
theorem c9_history_orders_strictly_increase (g : RunningGame)
    (i1 i2 : HistoryItem) :
    (record_hand_history_item (record_hand_history_item g i1) i2).history
      = g.history ++ [(g.next_hh, i1), (g.next_hh + 1, i2)]
    ∧ g.next_hh < g.next_hh + 1 := by
  refine ⟨?_, Nat.lt_succ_self _⟩
  simp [record_hand_history_item]

/-- C10: the history returned for an unfinished game contains only items
of the game that should be included for the requesting user (so the
public view of an unfinished game has no viewer-private items), while
for a finished game every item of the game's history is included
regardless of viewer, so the returned items do not depend on the
viewer. -/
theorem c10_history_privacy (g : RunningGame)
    (inc : Nat × HistoryItem → Option Nat → Bool) (u u1 u2 : Option Nat) :
    (∀ e ∈ get_history_items g u inc,
        e ∈ g.history ∧ (g.is_finished = false → inc e u = true))
    ∧ (g.is_finished = true →
        ∀ e ∈ g.history, e ∈ get_history_items g u inc)
    ∧ (g.is_finished = true →
        get_history_items g u1 inc = get_history_items g u2 inc) := by
  refine ⟨?_, ?_, ?_⟩
  · intro e he
    rw [get_history_items, List.mem_filter] at he
    refine ⟨?_, ?_⟩
    · have := he.1
      rwa [sort_by_order, List.mem_mergeSort] at this
    · intro hfin
      have := he.2
      rw [hfin] at this
      simpa using this
  · intro hfin e he
    rw [get_history_items, List.mem_filter]
    constructor
    · rw [sort_by_order, List.mem_mergeSort]
      exact he
    · rw [hfin]
      simp
  · intro hfin
    simp [get_history_items, hfin]

/-- Witness for C10 at a concrete finished game: the two views returned
for different users coincide, and a record that the predicate would hide
from user 5 is nonetheless in user 5's view of the finished game. -/
theorem c10_history_privacy_witness :
    get_history_items
      { gameid := 1, next_hh := 2, current_userid := none, board := [],
        current_round := .river, pot_pre := 10, increment := 2, bet_count := 0,
        is_finished := true, big_blind := 2, rgps := [], deck := [],
        last_action_time := 0,
        history := [(0, .timeoutItem 4), (1, .userRange 4 [])] }
      (some 4) (fun e ou => decide (ou = some e.1))
    = get_history_items
      { gameid := 1, next_hh := 2, current_userid := none, board := [],
        current_round := .river, pot_pre := 10, increment := 2, bet_count := 0,
        is_finished := true, big_blind := 2, rgps := [], deck := [],
        last_action_time := 0,
        history := [(0, .timeoutItem 4), (1, .userRange 4 [])] }
      (some 5) (fun e ou => decide (ou = some e.1))
    ∧ ((0 : Nat), HistoryItem.timeoutItem 4) ∈ get_history_items
      { gameid := 1, next_hh := 2, current_userid := none, board := [],
        current_round := .river, pot_pre := 10, increment := 2, bet_count := 0,
        is_finished := true, big_blind := 2, rgps := [], deck := [],
        last_action_time := 0,
        history := [(0, .timeoutItem 4), (1, .userRange 4 [])] }
      (some 5) (fun e ou => decide (ou = some e.1)) :=
  ⟨(c10_history_privacy _ _ none (some 4) (some 5)).2.2 rfl,
   (c10_history_privacy _ _ (some 5) none none).2.1 rfl
     ((0 : Nat), HistoryItem.timeoutItem 4) (by decide)⟩

/-- C7: every validation failure of `perform_action` — no such game,
not the submitting user's turn, or a range action that does not fit the
user's range and options — returns an error value and leaves the stored
games exactly as they were; no partial mutation survives. -/
theorem c7_validation_failure_pure (db : List RunningGame)
    (gameid userid : Nat) (ra : RangeAction) (res : Resolver) (now : Int) :
    (find_game db gameid = none →
      perform_action db gameid userid ra res now
        = (db, .error .noSuchRunningGame))
    ∧ (∀ g, find_game db gameid = some g → g.current_userid ≠ some userid →
        perform_action db gameid userid ra res now
          = (db, .error .notUsersTurn))
    ∧ (∀ g rgp, find_game db gameid = some g →
        g.current_userid = some userid → current_rgp g = some rgp →
        range_action_fits ra (calculate_current_options g rgp) rgp.range
          = false →
        perform_action db gameid userid ra res now
          = (db, .error .invalidRanges)) := by
  refine ⟨?_, ?_, ?_⟩
  · intro hfind
    simp [perform_action, hfind]
  · intro g hfind hturn
    simp [perform_action, hfind, hturn]
  · intro g rgp hfind hturn hrgp hfits
    simp [perform_action, hfind, hturn, hrgp, hfits]

/-- Witness for C7 at concrete inputs: submitting to an empty store
returns the no-such-game error and leaves the store empty. -/
theorem c7_validation_failure_pure_witness :
    perform_action [] 3 7
      { fold_range := [], passive_range := [], aggressive_range := [],
        raise_total := 0 }
      (fun _ _ _ _ =>
        ({ is_fold := true, is_passive := false, is_aggressive := false,
           call_cost := 0, raise_total := 0, is_raise := false,
           is_terminate := false }, []))
      0
    = ([], .error .noSuchRunningGame) :=
  (c7_validation_failure_pure [] 3 7 _ _ 0).1 rfl

theorem sum_chip_map (l : List Rgp) (fn : Rgp → Rgp)
    (h : ∀ r, (fn r).stack + (fn r).contributed = r.stack + r.contributed) :
    ((l.map fn).map (fun r => r.stack + r.contributed)).sum
      = (l.map (fun r => r.stack + r.contributed)).sum := by
  induction l with
  | nil => simp
  | cons a t ih => simp only [List.map_cons, List.sum_cons, h, ih]

theorem foldl_add_contributed (l : List Rgp) (init : Int) :
    l.foldl (fun acc r => acc + r.contributed) init
      = init + (l.map (fun r => r.contributed)).sum := by
  induction l generalizing init with
  | nil => simp
  | cons a t ih =>
    simp only [List.foldl_cons, List.map_cons, List.sum_cons, ih]
    ring

theorem sum_map_split (l : List Rgp) :
    (l.map (fun r => r.stack + r.contributed)).sum
      = (l.map (fun r => r.stack)).sum + (l.map (fun r => r.contributed)).sum := by
  induction l with
  | nil => simp
  | cons a t ih =>
    simp only [List.map_cons, List.sum_cons, ih]
    ring

theorem chip_sum_updateRgp (g : RunningGame) (o : Nat) (f : Rgp → Rgp)
    (h : ∀ r, (f r).stack + (f r).contributed = r.stack + r.contributed) :
    chip_sum (updateRgp g o f) = chip_sum g := by
  unfold chip_sum updateRgp
  simp only
  rw [sum_chip_map]
  intro r
  by_cases ho : r.order = o <;> simp [ho, h]

theorem chip_act_step (g g1 : RunningGame) (o : Nat) (ar : ActionResult)
    (h : act_step g o ar = some g1) : chip_sum g1 = chip_sum g := by
  unfold act_step at h
  split at h
  · cases h
    exact chip_sum_updateRgp g o _ (fun r => by simp)
  · split at h
    · cases h
      exact chip_sum_updateRgp g o _ (fun r => by simp)
    · split at h
      · cases h
        unfold chip_sum act_aggressive
        simp only
        rw [sum_chip_map]
        intro r
        by_cases ho : r.order = o
        · simp [ho]
          ring
        · by_cases hf : r.folded <;> simp [ho, hf]
      · cases h

theorem deal_to_board_spec (g : RunningGame) :
    (deal_to_board g).board
      = g.board ++ deal_cards g.deck
          ((g.rgps.map (fun r => r.cards_dealt)).flatten ++ g.board)
          (TOTAL_COMMUNITY_CARDS g.current_round - g.board.length)
    ∧ (deal_to_board g).rgps = g.rgps.map (fun r =>
        { r with range := remove_board_from_range r.range (deal_to_board g).board })
    ∧ (deal_to_board g).pot_pre = g.pot_pre
    ∧ (deal_to_board g).current_round = g.current_round
    ∧ (deal_to_board g).current_userid = g.current_userid
    ∧ (deal_to_board g).is_finished = g.is_finished
    ∧ (deal_to_board g).increment = g.increment
    ∧ (deal_to_board g).bet_count = g.bet_count
    ∧ (deal_to_board g).big_blind = g.big_blind
    ∧ (deal_to_board g).deck = g.deck := by
  by_cases hc : g.board.length < TOTAL_COMMUNITY_CARDS g.current_round <;>
    simp [deal_to_board, record_board, record_hand_history_item, hc]

theorem chip_sum_deal_to_board (g : RunningGame) :
    chip_sum (deal_to_board g) = chip_sum g := by
  obtain ⟨-, hrgps, hpot, -⟩ := deal_to_board_spec g
  unfold chip_sum
  rw [hrgps, hpot, sum_chip_map]
  intro r
  simp

theorem finish_betting_round_spec (g : RunningGame) (remain : List Rgp)
    (g2 : RunningGame) (h : finish_betting_round g remain = some g2) :
    NEXT_ROUND g.current_round = some g2.current_round
    ∧ g2.pot_pre = g.pot_pre + (g.rgps.map (fun r => r.contributed)).sum
    ∧ (∀ r ∈ g2.rgps, r.contributed = 0)
    ∧ g2.rgps.map (fun r => r.stack) = g.rgps.map (fun r => r.stack)
    ∧ g2.increment = g.big_blind
    ∧ g2.bet_count = 0
    ∧ g2.rgps.map (fun r => (r.folded, r.left_to_act))
        = g.rgps.map (fun r => (r.folded, if r.folded then r.left_to_act else true))
    ∧ g2.is_finished = g.is_finished
    ∧ g2.board = g.board ++ deal_cards g.deck
        ((g.rgps.map (fun r => r.cards_dealt)).flatten ++ g.board)
        (TOTAL_COMMUNITY_CARDS g2.current_round - g.board.length) := by
  unfold finish_betting_round at h
  cases hmin : minByOrder remain with
  | none => rw [hmin] at h; cases h
  | some cu =>
    rw [hmin] at h
    cases hnext : NEXT_ROUND g.current_round with
    | none => rw [hnext] at h; cases h
    | some nr =>
      rw [hnext] at h
      simp only [Option.some_inj] at h
      subst h
      obtain ⟨hb, hrgps, hpot, hround, -, hfin, -, -, -, -⟩ :=
        deal_to_board_spec { g with current_userid := some cu.userid,
                                    current_round := nr }
      simp only at hb hrgps hpot hround hfin
      constructor
      · simp only [hround, hnext]
      refine ⟨?_, ?_, ?_, ?_, ?_, ?_, ?_, ?_⟩
      · simp only [hpot, foldl_add_contributed, hrgps, List.map_map]
        rfl
      · intro r hr
        simp only [List.mem_map] at hr
        obtain ⟨r0, -, hr0⟩ := hr
        by_cases hf : r0.folded <;> simp [hf] at hr0 <;> rw [← hr0]
      · simp only [hrgps, List.map_map]
        refine List.map_congr_left ?_
        intro r hr
        by_cases hf : r.folded <;> simp [hf]
      · simp only [hrgps]
      · simp only [hrgps]
      · simp only [hrgps, List.map_map]
        refine List.map_congr_left ?_
        intro r hr
        by_cases hf : r.folded <;> simp [hf]
      · simp only [hfin]
      · simp only [hb, hround]

theorem chip_sum_finish_betting_round (g : RunningGame) (remain : List Rgp)
    (g2 : RunningGame) (h : finish_betting_round g remain = some g2) :
    chip_sum g2 = chip_sum g := by
  obtain ⟨-, hpot, hzero, hstack, -⟩ := finish_betting_round_spec g remain g2 h
  unfold chip_sum
  rw [sum_map_split g2.rgps, sum_map_split g.rgps, hstack, hpot]
  have hz : (g2.rgps.map (fun r => r.contributed)).sum = 0 := by
    rw [List.sum_eq_zero]
    intro x hx
    simp only [List.mem_map] at hx
    obtain ⟨r, hr, hcr⟩ := hx
    rw [← hcr]
    exact hzero r hr
  rw [hz]
  ring

theorem chip_advance_step (g g2 : RunningGame) (o : Nat)
    (h : advance_step g o = some g2) : chip_sum g2 = chip_sum g := by
  simp only [advance_step] at h
  split at h
  · cases h; simp [chip_sum]
  · split at h
    · split at h
      · cases h; simp [chip_sum]
      · exact chip_sum_finish_betting_round _ _ _ h
    · split at h
      · cases h
      · cases h; simp [chip_sum]

/-- C1: applying any accepted (non-terminate) ActionResult preserves the
sum over all seats of stack plus contributed, plus the pot; and
`_finish_betting_round` moves every seat's contributed amount into
`pot_pre`, zeroing each contribution, without changing any stack. -/
theorem c1_chip_conservation (g : RunningGame) (o : Nat) (ar : ActionResult)
    (g2 : RunningGame) (h : apply_action_result g o ar = some g2) :
    chip_sum g2 = chip_sum g
    ∧ ∀ gb : RunningGame, ∀ remain : List Rgp, ∀ gb2 : RunningGame,
        finish_betting_round gb remain = some gb2 →
          gb2.pot_pre = gb.pot_pre + (gb.rgps.map (fun r => r.contributed)).sum
          ∧ (∀ r ∈ gb2.rgps, r.contributed = 0)
          ∧ gb2.rgps.map (fun r => r.stack) = gb.rgps.map (fun r => r.stack) := by
  constructor
  · unfold apply_action_result at h
    cases hact : act_step g o ar with
    | none => rw [hact] at h; cases h
    | some g1 =>
      rw [hact] at h
      exact (chip_advance_step g1 g2 o h).trans (chip_act_step g g1 o ar hact)
  · intro gb remain gb2 hf
    obtain ⟨-, hpot, hzero, hstack, -⟩ :=
      finish_betting_round_spec gb remain gb2 hf
    exact ⟨hpot, hzero, hstack⟩

/-- Example seat: a big blind with 198 behind and 2 contributed. -/
def exBB : Rgp :=
  { userid := 1, order := 0, stack := 198, contributed := 2,
    range := [(10, 11)], left_to_act := true, folded := false,
    cards_dealt := [0, 1] }

/-- Example seat: a button with 199 behind and 1 contributed. -/
def exBTN : Rgp :=
  { userid := 2, order := 1, stack := 199, contributed := 1,
    range := [(12, 13)], left_to_act := true, folded := false,
    cards_dealt := [2, 3] }

/-- Example game: heads-up preflop, button to act. -/
def exGame : RunningGame :=
  { gameid := 1, next_hh := 0, current_userid := some 2, board := [],
    current_round := .preflop, pot_pre := 0, increment := 2, bet_count := 1,
    is_finished := false, big_blind := 2, rgps := [exBB, exBTN],
    deck := [20, 21, 22, 23, 24], last_action_time := 0, history := [] }

/-- Example action result: a fold. -/
def exFold : ActionResult :=
  { is_fold := true, is_passive := false, is_aggressive := false,
    call_cost := 0, raise_total := 0, is_raise := false, is_terminate := false }

/-- The example game after the button folds: the big blind gets a walk
and the hand finishes. -/
def exGameAfterFold : RunningGame :=
  { exGame with is_finished := true,
                rgps := [exBB, { exBTN with left_to_act := false,
                                            folded := true }] }

/-- Witness for C1 at a concrete game: the button folding preserves the
chip sum. -/
theorem c1_chip_conservation_witness :
    apply_action_result exGame 1 exFold = some exGameAfterFold
    ∧ chip_sum exGameAfterFold = chip_sum exGame :=
  ⟨by decide, (c1_chip_conservation exGame 1 exFold exGameAfterFold (by decide)).1⟩

theorem minByOrder_some (l : List Rgp) (h : l ≠ []) :
    ∃ p, minByOrder l = some p := by
  cases l with
  | nil => exact absurd rfl h
  | cons a t => exact ⟨_, rfl⟩

theorem next_round_some (s : Street) (h : s ≠ Street.river) :
    ∃ nr, NEXT_ROUND s = some nr := by
  cases s <;> simp [NEXT_ROUND] at h ⊢

/-- Counterexample game for C2: the acting seat is the only non-folded
seat and folds, leaving zero non-folded seats on a non-river street. -/
def cexGame : RunningGame :=
  { gameid := 2, next_hh := 0, current_userid := some 5, board := [],
    current_round := .preflop, pot_pre := 10, increment := 2, bet_count := 0,
    is_finished := false, big_blind := 2,
    rgps := [{ userid := 5, order := 0, stack := 100, contributed := 0,
               range := [(4, 5)], left_to_act := true, folded := false,
               cards_dealt := [0, 1] },
             { userid := 6, order := 1, stack := 100, contributed := 0,
               range := [], left_to_act := false, folded := true,
               cards_dealt := [2, 3] }],
    deck := [20, 21, 22, 23, 24], last_action_time := 0, history := [] }

/-- The counterexample game after the fold is applied (but before the
advance logic runs): every seat is folded. -/
def cexGameAfter : RunningGame :=
  { cexGame with
    rgps := [{ userid := 5, order := 0, stack := 100, contributed := 0,
               range := [(4, 5)], left_to_act := false, folded := true,
               cards_dealt := [0, 1] },
             { userid := 6, order := 1, stack := 100, contributed := 0,
               range := [], left_to_act := false, folded := true,
               cards_dealt := [2, 3] }] }

/-- Counterexample to C2 as stated: after this accepted fold no seat has
left_to_act true and zero (hence at most one) non-folded seats remain on
a non-river street, yet the game is not marked finished — the transition
errors out (`min` of the empty remaining list) instead. -/
theorem c2_counterexample :
    act_step cexGame 0 exFold = some cexGameAfter
    ∧ cexGameAfter.rgps.filter (fun p => p.left_to_act) = []
    ∧ cexGameAfter.rgps.filter (fun p => !p.left_to_act && !p.folded) = []
    ∧ cexGameAfter.current_round ≠ Street.river
    ∧ apply_action_result cexGame 0 exFold = none := by
  refine ⟨by decide, by decide, by decide, by decide, by decide⟩

/-- C2 (amended): after an accepted (non-terminate) ActionResult is
applied, with the left-to-act and remaining (non-folded, not
left-to-act) seats computed on the post-action seats: if exactly one
seat is left to act and none remain, the game is marked finished; if no
seat is left to act, the game is marked finished when exactly one
non-folded seat remains or the street is the river, and when two or more
remain off the river the betting round completes and the street
advances. -/
theorem c2_finish_conditions (g0 : RunningGame) (o : Nat) (ar : ActionResult)
    (g : RunningGame) (hact : act_step g0 o ar = some g) :
    ((g.rgps.filter (fun p => p.left_to_act)).length = 1 ∧
        g.rgps.filter (fun p => !p.left_to_act && !p.folded) = [] →
      apply_action_result g0 o ar = some { g with is_finished := true })
    ∧ (g.rgps.filter (fun p => p.left_to_act) = [] →
        (g.rgps.filter (fun p => !p.left_to_act && !p.folded)).length = 1 ∨
          g.current_round = Street.river →
      apply_action_result g0 o ar = some { g with is_finished := true })
    ∧ (g.rgps.filter (fun p => p.left_to_act) = [] →
        2 ≤ (g.rgps.filter (fun p => !p.left_to_act && !p.folded)).length →
        g.current_round ≠ Street.river →
      ∃ g2, apply_action_result g0 o ar = some g2
        ∧ NEXT_ROUND g.current_round = some g2.current_round
        ∧ g2.is_finished = g.is_finished) := by
  have happ : apply_action_result g0 o ar = advance_step g o := by
    unfold apply_action_result
    rw [hact]
    rfl
  refine ⟨?_, ?_, ?_⟩
  · intro hcase
    rw [happ]
    simp only [advance_step]
    rw [if_pos hcase]
  · intro hltac hcase
    have hnotA : ¬((g.rgps.filter (fun p => p.left_to_act)).length = 1 ∧
        g.rgps.filter (fun p => !p.left_to_act && !p.folded) = []) := by
      rw [hltac]
      simp
    rw [happ]
    simp only [advance_step]
    rw [if_neg hnotA, if_pos hltac, if_pos hcase]
  · intro hltac hge2 hriver
    have hne : g.rgps.filter (fun p => !p.left_to_act && !p.folded) ≠ [] := by
      intro hnil
      rw [hnil] at hge2
      simp at hge2
    obtain ⟨cu, hmin⟩ := minByOrder_some _ hne
    obtain ⟨nr, hnext⟩ := next_round_some _ hriver
    have hfin : ∃ g2, finish_betting_round g
        (g.rgps.filter (fun p => !p.left_to_act && !p.folded)) = some g2 := by
      unfold finish_betting_round
      rw [hmin, hnext]
      exact ⟨_, rfl⟩
    obtain ⟨g2, hg2⟩ := hfin
    have hnotA : ¬((g.rgps.filter (fun p => p.left_to_act)).length = 1 ∧
        g.rgps.filter (fun p => !p.left_to_act && !p.folded) = []) := by
      rw [hltac]
      simp
    have hnotC : ¬((g.rgps.filter (fun p => !p.left_to_act && !p.folded)).length
          = 1 ∨ g.current_round = Street.river) := by
      intro hcase
      rcases hcase with h1 | h2
      · omega
      · exact hriver h2
    refine ⟨g2, ?_, ?_, ?_⟩
    · rw [happ]
      simp only [advance_step]
      rw [if_neg hnotA, if_pos hltac, if_neg hnotC, hg2]
    · exact (finish_betting_round_spec g _ g2 hg2).1
    · exact (finish_betting_round_spec g _ g2 hg2).2.2.2.2.2.2.2.1

/-- Witness for C2 (amended) at a concrete game: the button folds heads
up, exactly one seat is left to act with nobody else remaining, and the
hand is marked finished. -/
theorem c2_finish_conditions_witness :
    apply_action_result exGame 1 exFold
      = some { exGameAfterFold with is_finished := true } :=
  (c2_finish_conditions exGame 1 exFold
      { exGameAfterFold with is_finished := false } (by decide)).1
    (by decide)

/-- C3: when a betting round completes, `_finish_betting_round` sweeps
every seat's contributed chips into the pot (zeroing each contribution
and leaving every stack unchanged), advances the street, resets the bet
increment to the situation's big blind and the bet count to zero, sets
left_to_act for every non-folded seat while leaving folded seats' flags
alone, and — when the deck holds enough fresh cards — deals the board up
to the new street's required card count. -/
theorem c3_finish_betting_round (g : RunningGame) (remain : List Rgp)
    (g2 : RunningGame) (h : finish_betting_round g remain = some g2) :
    g2.pot_pre = g.pot_pre + (g.rgps.map (fun r => r.contributed)).sum
    ∧ (∀ r ∈ g2.rgps, r.contributed = 0)
    ∧ g2.rgps.map (fun r => r.stack) = g.rgps.map (fun r => r.stack)
    ∧ NEXT_ROUND g.current_round = some g2.current_round
    ∧ g2.increment = g.big_blind
    ∧ g2.bet_count = 0
    ∧ g2.rgps.map (fun r => (r.folded, r.left_to_act))
        = g.rgps.map (fun r =>
            (r.folded, if r.folded then r.left_to_act else true))
    ∧ (g.board.length ≤ TOTAL_COMMUNITY_CARDS g2.current_round →
        TOTAL_COMMUNITY_CARDS g2.current_round - g.board.length ≤
          (g.deck.filter (fun c => !(bmem c
            ((g.rgps.map (fun r => r.cards_dealt)).flatten ++ g.board)))).length →
        g2.board.length = TOTAL_COMMUNITY_CARDS g2.current_round) := by
  obtain ⟨hnext, hpot, hzero, hstack, hinc, hbet, hflags, -, hboard⟩ :=
    finish_betting_round_spec g remain g2 h
  refine ⟨hpot, hzero, hstack, hnext, hinc, hbet, hflags, ?_⟩
  intro hle henough
  rw [hboard]
  simp only [deal_cards, List.length_append, List.length_take]
  omega

/-- Witness seat for C3. -/
def exSeatA : Rgp :=
  { userid := 1, order := 0, stack := 196, contributed := 2,
    range := [(20, 11), (10, 11)], left_to_act := false, folded := false,
    cards_dealt := [0, 1] }

/-- Witness seat for C3. -/
def exSeatB : Rgp :=
  { userid := 2, order := 1, stack := 196, contributed := 2,
    range := [(12, 13)], left_to_act := false, folded := false,
    cards_dealt := [2, 3] }

/-- Witness game for C3: a completed preflop betting round. -/
def exRound : RunningGame :=
  { gameid := 3, next_hh := 0, current_userid := some 1, board := [],
    current_round := .preflop, pot_pre := 0, increment := 4, bet_count := 2,
    is_finished := false, big_blind := 2, rgps := [exSeatA, exSeatB],
    deck := [20, 21, 22, 23, 24], last_action_time := 0, history := [] }

/-- The C3 witness game after the round finishes: the flop 20, 21, 22 is
dealt, the 4 contributed chips are in the pot, and the board-conflicting
combo (20, 11) has been stripped from seat A's range. -/
def exRoundAfter : RunningGame :=
  { gameid := 3, next_hh := 1, current_userid := some 1,
    board := [20, 21, 22], current_round := .flop, pot_pre := 4,
    increment := 2, bet_count := 0, is_finished := false, big_blind := 2,
    rgps := [{ exSeatA with contributed := 0, left_to_act := true,
                            range := [(10, 11)] },
             { exSeatB with contributed := 0, left_to_act := true }],
    deck := [20, 21, 22, 23, 24], last_action_time := 0,
    history := [(0, .board .flop [20, 21, 22])] }

/-- Witness for C3 at a concrete game: finishing the preflop round
sweeps the 4 contributed chips into the pot and deals a 3-card flop. -/
theorem c3_finish_betting_round_witness :
    exRoundAfter.pot_pre
      = exRound.pot_pre + (exRound.rgps.map (fun r => r.contributed)).sum
    ∧ exRoundAfter.board.length
      = TOTAL_COMMUNITY_CARDS exRoundAfter.current_round := by
  have h := c3_finish_betting_round exRound [exSeatA, exSeatB] exRoundAfter
    (by decide)
  exact ⟨h.1, h.2.2.2.2.2.2.2 (by decide) (by decide)⟩

theorem foldl_min_spec (t : List Rgp) (a : Rgp) :
    t.foldl (fun acc p => if p.order < acc.order then p else acc) a ∈ a :: t
    ∧ ∀ q ∈ a :: t,
        (t.foldl (fun acc p => if p.order < acc.order then p else acc) a).order
          ≤ q.order := by
  induction t generalizing a with
  | nil => simp
  | cons b t ih =>
    simp only [List.foldl_cons]
    by_cases hba : b.order < a.order
    · rw [if_pos hba]
      obtain ⟨ihmem, ihle⟩ := ih b
      constructor
      · rcases List.mem_cons.mp ihmem with hh | ht
        · rw [hh]
          simp
        · simp [ht]
      · intro q hq
        rcases List.mem_cons.mp hq with h1 | h2
        · subst h1
          have := ihle b (List.mem_cons_self _ _)
          omega
        · rcases List.mem_cons.mp h2 with h1 | h3
          · subst h1
            exact ihle q (List.mem_cons_self _ _)
          · exact ihle q (List.mem_cons_of_mem _ h3)
    · rw [if_neg hba]
      obtain ⟨ihmem, ihle⟩ := ih a
      constructor
      · rcases List.mem_cons.mp ihmem with hh | ht
        · rw [hh]
          simp
        · simp [ht]
      · intro q hq
        rcases List.mem_cons.mp hq with h1 | h2
        · subst h1
          exact ihle q (List.mem_cons_self _ _)
        · rcases List.mem_cons.mp h2 with h1 | h3
          · subst h1
            have := ihle a (List.mem_cons_self _ _)
            omega
          · exact ihle q (List.mem_cons_of_mem _ h3)

theorem minByOrder_spec (l : List Rgp) (p : Rgp) (h : minByOrder l = some p) :
    p ∈ l ∧ ∀ q ∈ l, p.order ≤ q.order := by
  cases l with
  | nil => cases h
  | cons a t =>
    simp only [minByOrder, Option.some_inj] at h
    subst h
    exact foldl_min_spec t a

theorem act_step_no_actor_ltac (g g1 : RunningGame) (o : Nat)
    (ar : ActionResult) (hact : act_step g o ar = some g1) :
    ∀ r ∈ g1.rgps, r.order = o → r.left_to_act = false := by
  unfold act_step at hact
  split at hact
  · cases hact
    intro r hr ho
    simp only [act_fold, updateRgp, List.mem_map] at hr
    obtain ⟨r0, -, hr0⟩ := hr
    by_cases h0 : r0.order = o
    · simp [h0] at hr0
      rw [← hr0]
    · simp [h0] at hr0
      rw [← hr0] at ho
      exact absurd ho h0
  · split at hact
    · cases hact
      intro r hr ho
      simp only [act_passive, updateRgp, List.mem_map] at hr
      obtain ⟨r0, -, hr0⟩ := hr
      by_cases h0 : r0.order = o
      · simp [h0] at hr0
        rw [← hr0]
      · simp [h0] at hr0
        rw [← hr0] at ho
        exact absurd ho h0
    · split at hact
      · cases hact
        intro r hr ho
        simp only [act_aggressive, List.mem_map] at hr
        obtain ⟨r0, -, hr0⟩ := hr
        by_cases h0 : r0.order = o
        · simp [h0] at hr0
          rw [← hr0]
        · by_cases hf : r0.folded <;> simp [h0, hf] at hr0 <;>
            rw [← hr0] at ho <;> exact absurd ho h0
      · cases hact

/-- C4: when play continues in the same round (at least one seat is left
to act and the walk case does not apply), the turn passes to the
left-to-act seat with the smallest order above the actor's order; if no
left-to-act seat sits after the actor, to the left-to-act seat with the
smallest order overall. -/
theorem c4_next_to_act (g0 : RunningGame) (o : Nat) (ar : ActionResult)
    (g : RunningGame) (hact : act_step g0 o ar = some g)
    (hltac_ne : g.rgps.filter (fun p => p.left_to_act) ≠ [])
    (hnotA : ¬((g.rgps.filter (fun p => p.left_to_act)).length = 1 ∧
        g.rgps.filter (fun p => !p.left_to_act && !p.folded) = [])) :
    ∃ p, apply_action_result g0 o ar
        = some { g with current_userid := some p.userid }
      ∧ p ∈ g.rgps.filter (fun p => p.left_to_act)
      ∧ ((∃ q ∈ g.rgps.filter (fun p => p.left_to_act), o < q.order) →
          o < p.order ∧ ∀ q ∈ g.rgps.filter (fun p => p.left_to_act),
            o < q.order → p.order ≤ q.order)
      ∧ ((¬∃ q ∈ g.rgps.filter (fun p => p.left_to_act), o < q.order) →
          ∀ q ∈ g.rgps.filter (fun p => p.left_to_act), p.order ≤ q.order) := by
  have happ : apply_action_result g0 o ar = advance_step g o := by
    unfold apply_action_result
    rw [hact]
    rfl
  have hno := act_step_no_actor_ltac g0 g o ar hact
  rw [happ]
  simp only [advance_step]
  rw [if_neg hnotA, if_neg hltac_ne]
  by_cases hlater :
      (g.rgps.filter (fun p => p.left_to_act)).filter (fun p => o < p.order) = []
  · have hempty :
        ((g.rgps.filter (fun p => p.left_to_act)).filter
          (fun p => o < p.order)).isEmpty = true := by
      rw [hlater]
      rfl
    have hlt : ∀ q ∈ g.rgps.filter (fun p => p.left_to_act), q.order < o := by
      intro q hq
      have hne : q.order ≠ o := by
        intro hqo
        have hmem := List.mem_filter.mp hq
        have := hno q hmem.1 hqo
        rw [this] at hmem
        simp at hmem
      have hngt : ¬(o < q.order) := by
        intro hgt
        have : q ∈ ((g.rgps.filter (fun p => p.left_to_act)).filter
            (fun p => o < p.order)) := by
          rw [List.mem_filter]
          exact ⟨hq, by simpa using hgt⟩
        rw [hlater] at this
        cases this
      omega
    have hearly : (g.rgps.filter (fun p => p.left_to_act)).filter
        (fun p => p.order < o) = g.rgps.filter (fun p => p.left_to_act) := by
      rw [List.filter_eq_self]
      intro q hq
      simpa using hlt q hq
    rw [hempty]
    simp only [if_pos]
    rw [hearly]
    obtain ⟨p, hp⟩ := minByOrder_some _ hltac_ne
    obtain ⟨hpmem, hple⟩ := minByOrder_spec _ p hp
    rw [hp]
    refine ⟨p, rfl, hpmem, ?_, fun _ => hple⟩
    intro hex
    exfalso
    obtain ⟨q, hq, hqgt⟩ := hex
    exact absurd hqgt (by have := hlt q hq; omega)
  · have hempty :
        ((g.rgps.filter (fun p => p.left_to_act)).filter
          (fun p => o < p.order)).isEmpty = false := by
      cases hl : ((g.rgps.filter (fun p => p.left_to_act)).filter
          (fun p => o < p.order)) with
      | nil => exact absurd hl hlater
      | cons a t => rfl
    rw [hempty]
    simp only [Bool.false_eq_true, if_false]
    obtain ⟨p, hp⟩ := minByOrder_some _ hlater
    obtain ⟨hpmem, hple⟩ := minByOrder_spec _ p hp
    rw [hp]
    have hpltac := (List.mem_filter.mp hpmem).1
    have hpgt : o < p.order := by
      have := (List.mem_filter.mp hpmem).2
      simpa using this
    refine ⟨p, rfl, hpltac, ?_, ?_⟩
    · intro hex
      refine ⟨hpgt, ?_⟩
      intro q hq hqgt
      refine hple q ?_
      rw [List.mem_filter]
      exact ⟨hq, by simpa using hqgt⟩
    · intro hnex
      exfalso
      exact hnex ⟨p, hpltac, hpgt⟩

/-- Example action result: the button raises to 6. -/
def exRaise : ActionResult :=
  { is_fold := false, is_passive := false, is_aggressive := true,
    call_cost := 0, raise_total := 6, is_raise := true, is_terminate := false }

/-- The example game after the button's raise to 6 is applied, before
the advance logic runs. -/
def exGameRaised : RunningGame :=
  { exGame with
    bet_count := 2,
    rgps := [{ exBB with left_to_act := true },
             { exBTN with stack := 194, contributed := 6,
                          left_to_act := false }] }

/-- Witness for C4 at a concrete game: the button raises, the big blind
must respond, and the turn passes to the big blind (the only seat left
to act, seated before the actor). -/
theorem c4_next_to_act_witness :
    apply_action_result exGame 1 exRaise
      = some { exGameRaised with current_userid := some 1 } := by
  obtain ⟨p, h1, hpmem, -, -⟩ := c4_next_to_act exGame 1 exRaise exGameRaised
    (by decide) (by decide) (by decide)
  have hfilter : exGameRaised.rgps.filter (fun p => p.left_to_act)
      = [{ exBB with left_to_act := true }] := by decide
  rw [hfilter] at hpmem
  have hp : p = { exBB with left_to_act := true } := by simpa using hpmem
  rw [hp] at h1
  exact h1

theorem bmem_false_iff {a : Type} [DecidableEq a] (x : a) (l : List a) :
    (!(bmem x l)) = true ↔ x ∉ l := by
  simp [bmem]

/-- C5: every card dealt by `_deal_to_board` is fresh — any card of the
resulting board was either already on the board, or is distinct from
every seat's dealt hole cards and from every card of the previous board
— and afterwards no seat's range contains a combination using a board
card. -/
theorem c5_deal_fresh_and_ranges_disjoint (g : RunningGame) :
    (∀ c ∈ (deal_to_board g).board,
        c ∈ g.board ∨
          (c ∉ (g.rgps.map (fun r => r.cards_dealt)).flatten ∧ c ∉ g.board))
    ∧ ∀ r ∈ (deal_to_board g).rgps, ∀ p ∈ r.range,
        p.1 ∉ (deal_to_board g).board ∧ p.2 ∉ (deal_to_board g).board := by
  obtain ⟨hb, hrgps, -⟩ := deal_to_board_spec g
  constructor
  · intro c hc
    rw [hb, List.mem_append] at hc
    rcases hc with hold | hnew
    · exact Or.inl hold
    · right
      have hfil := List.mem_of_mem_take hnew
      have hpred := List.of_mem_filter hfil
      rw [bmem_false_iff] at hpred
      rw [List.mem_append] at hpred
      push_neg at hpred
      exact hpred
  · intro r hr p hp
    rw [hrgps, List.mem_map] at hr
    obtain ⟨r0, -, hr0⟩ := hr
    rw [← hr0] at hp
    simp only [remove_board_from_range, List.mem_filter] at hp
    have hpred := hp.2
    rw [Bool.and_eq_true, bmem_false_iff, bmem_false_iff] at hpred
    exact hpred

/-- Witness game for C5: a flop about to be dealt. -/
def exDealGame : RunningGame :=
  { exRound with current_round := .flop }

/-- Witness for C5 at a concrete game: the first dealt flop card avoids
every seat's hole cards, and a surviving range combo avoids the new
board. -/
theorem c5_deal_fresh_and_ranges_disjoint_witness :
    (20 : Card) ∉ (exDealGame.rgps.map (fun r => r.cards_dealt)).flatten
    ∧ (10 : Card) ∉ (deal_to_board exDealGame).board := by
  constructor
  · rcases (c5_deal_fresh_and_ranges_disjoint exDealGame).1 20 (by decide)
        with h | h
    · exact absurd h (by decide)
    · exact h.1
  · exact ((c5_deal_fresh_and_ranges_disjoint exDealGame).2
      { exSeatA with range := [(10, 11)] } (by decide) (10, 11) (by decide)).1

/-- C6: a terminate ActionResult is never applied as an input action:
`apply_action_result` errors on a terminate result,
`_record_action_result` errors on a terminate result, and when the
resolver itself produces a terminate result `_perform_action` just marks
the game finished with the actor's left_to_act cleared, appending only
the range-action record to the history — no ActionResult record, no call
to `apply_action_result`. -/
theorem c6_terminate_never_applied :
    (∀ g : RunningGame, ∀ o : Nat, ∀ ar : ActionResult,
        ar.is_terminate = true → ar.is_fold = false → ar.is_passive = false →
        ar.is_aggressive = false → apply_action_result g o ar = none)
    ∧ (∀ g : RunningGame, ∀ u : Nat, ∀ ar : ActionResult, ∀ now : Int,
        ar.is_terminate = true → record_action_result g u ar now = none)
    ∧ (∀ g : RunningGame, ∀ actor : Rgp, ∀ ra : RangeAction,
        ∀ opts : CurrentOptions, ∀ res : Resolver, ∀ now : Int,
        (res (record_range_action g actor.userid ra opts.can_check
            opts.is_raise) actor ra opts).1.is_terminate = true →
        ∃ g2, perform_action_inner g actor ra opts res now
            = some (g2, (res (record_range_action g actor.userid ra
                opts.can_check opts.is_raise) actor ra opts).1)
          ∧ g2.is_finished = true
          ∧ (∀ r ∈ g2.rgps, r.order = actor.order → r.left_to_act = false)
          ∧ g2.history = g.history ++
              [(g.next_hh, HistoryItem.rangeAction actor.userid ra.fold_range
                  ra.passive_range ra.aggressive_range ra.raise_total
                  opts.can_check opts.is_raise)]) := by
  refine ⟨?_, ?_, ?_⟩
  · intro g o ar hterm hf hp ha
    unfold apply_action_result act_step
    rw [hf, hp, ha]
    rfl
  · intro g u ar now hterm
    unfold record_action_result
    rw [if_pos hterm]
  · intro g actor ra opts res now hterm
    have heq : perform_action_inner g actor ra opts res now
        = some (finish_game (updateRgp
            { record_range_action g actor.userid ra opts.can_check
                opts.is_raise with is_finished := true }
            actor.order (fun r => { r with left_to_act := false })),
          (res (record_range_action g actor.userid ra opts.can_check
            opts.is_raise) actor ra opts).1) := by
      simp only [perform_action_inner]
      rw [if_pos hterm]
    refine ⟨_, heq, ?_, ?_, ?_⟩
    · rfl
    · intro r hr ho
      simp only [finish_game, updateRgp, List.mem_map] at hr
      obtain ⟨r0, -, hr0⟩ := hr
      by_cases h0 : r0.order = actor.order
      · simp [h0] at hr0
        rw [← hr0]
      · simp [h0] at hr0
        rw [← hr0] at ho
        exact absurd ho h0
    · simp [finish_game, updateRgp, record_range_action,
        record_hand_history_item]

/-- Example action result: an internal terminate signal. -/
def exTerminate : ActionResult :=
  { is_fold := false, is_passive := false, is_aggressive := false,
    call_cost := 0, raise_total := 0, is_raise := false, is_terminate := true }

/-- Witness for C6 at concrete inputs: applying a terminate result to
the example game is an error. -/
theorem c6_terminate_never_applied_witness :
    apply_action_result exGame 1 exTerminate = none :=
  (c6_terminate_never_applied).1 exGame 1 exTerminate rfl rfl rfl rfl

theorem deal_to_board_gameid (g : RunningGame) :
    (deal_to_board g).gameid = g.gameid := by
  by_cases hc : g.board.length < TOTAL_COMMUNITY_CARDS g.current_round <;>
    simp [deal_to_board, record_board, record_hand_history_item, hc]

theorem finish_betting_round_gameid (g : RunningGame) (remain : List Rgp)
    (g2 : RunningGame) (h : finish_betting_round g remain = some g2) :
    g2.gameid = g.gameid := by
  unfold finish_betting_round at h
  cases hmin : minByOrder remain with
  | none => rw [hmin] at h; cases h
  | some cu =>
    rw [hmin] at h
    cases hnext : NEXT_ROUND g.current_round with
    | none => rw [hnext] at h; cases h
    | some nr =>
      rw [hnext] at h
      simp only [Option.some_inj] at h
      subst h
      exact deal_to_board_gameid _

theorem apply_action_result_gameid (g : RunningGame) (o : Nat)
    (ar : ActionResult) (g2 : RunningGame)
    (h : apply_action_result g o ar = some g2) : g2.gameid = g.gameid := by
  unfold apply_action_result at h
  cases hact : act_step g o ar with
  | none => rw [hact] at h; cases h
  | some g1 =>
    rw [hact] at h
    have h1 : g1.gameid = g.gameid := by
      unfold act_step at hact
      split at hact
      · cases hact; rfl
      · split at hact
        · cases hact; rfl
        · split at hact
          · cases hact; rfl
          · cases hact
    have h2 : g2.gameid = g1.gameid := by
      simp only [Option.bind_eq_bind, Option.some_bind] at h
      simp only [advance_step] at h
      split at h
      · cases h; rfl
      · split at h
        · split at h
          · cases h; rfl
          · exact finish_betting_round_gameid _ _ _ h
        · split at h
          · cases h
          · cases h; rfl
    rw [h2, h1]

theorem record_action_result_gameid (g : RunningGame) (u : Nat)
    (ar : ActionResult) (now : Int) (g3 : RunningGame)
    (h : record_action_result g u ar now = some g3) : g3.gameid = g.gameid := by
  unfold record_action_result at h
  split at h
  · cases h
  · cases h
    rfl

theorem perform_action_inner_gameid (g : RunningGame) (actor : Rgp)
    (ra : RangeAction) (opts : CurrentOptions) (res : Resolver) (now : Int)
    (g2 : RunningGame) (ar : ActionResult)
    (h : perform_action_inner g actor ra opts res now = some (g2, ar)) :
    g2.gameid = g.gameid := by
  simp only [perform_action_inner] at h
  split at h
  · simp only [Option.some_inj, Prod.mk.injEq] at h
    rw [← h.1]
    rfl
  · split at h
    · cases h
    · split at h
      · cases h
      · rename_i x1 g3 hrec x2 g5 happly
        simp only [Option.some_inj, Prod.mk.injEq] at h
        have h5 : g5.gameid = g3.gameid := by
          have := apply_action_result_gameid _ _ _ _ happly
          simpa [record_rgp_range, record_hand_history_item] using this
        have h3 : g3.gameid = g.gameid := by
          have := record_action_result_gameid _ _ _ _ _ hrec
          simpa [updateRgp, record_range_action, record_hand_history_item]
            using this
        rw [← h.1]
        split <;> simp [finish_game, h5, h3]

theorem fits_fold_everything (opts : CurrentOptions) (r : HandRange) :
    range_action_fits
      { fold_range := r, passive_range := NOTHING, aggressive_range := NOTHING,
        raise_total := 0 } opts r = true := by
  simp only [range_action_fits, exact_partition, NOTHING, range_subset,
    range_disjoint, List.append_nil, List.isEmpty_nil, if_pos]
  simp [bmem, List.all_eq_true]

theorem current_rgp_userid (g : RunningGame) (rgp : Rgp)
    (h : current_rgp g = some rgp) : g.current_userid = some rgp.userid := by
  unfold current_rgp at h
  cases hu : g.current_userid with
  | none => rw [hu] at h; cases h
  | some u =>
    rw [hu] at h
    have := List.find?_some h
    simp only [decide_eq_true_eq] at this
    rw [this]

/-- C8: for a game whose current player is idle past the threshold,
`process_timeouts` acts via `_timeout`; the synthesized range action
folds the player's entire range with empty passive and aggressive
sub-ranges and raise total zero; it passes the ordinary validator; and
the ordinary `perform_action` entry point on that synthesized action
stores exactly the state `_timeout` produces — the identical resolver
and state-machine path. -/
theorem c8_timeout_folds_whole_range (g : RunningGame) (rgp : Rgp)
    (res : Resolver) (now : Int)
    (hrgp : current_rgp g = some rgp)
    (hdue : timeout_due g now = true) :
    process_timeouts [g] res now
      = (timeout g res now).map (fun g2 => ([g2], 1))
    ∧ range_action_fits
        { fold_range := rgp.range, passive_range := NOTHING,
          aggressive_range := NOTHING, raise_total := 0 }
        (calculate_current_options g rgp) rgp.range = true
    ∧ timeout g res now
        = (perform_action_inner (record_timeoout g rgp.userid) rgp
            { fold_range := rgp.range, passive_range := NOTHING,
              aggressive_range := NOTHING, raise_total := 0 }
            (calculate_current_options g rgp) res now).map (fun p => p.1)
    ∧ (perform_action [record_timeoout g rgp.userid] g.gameid rgp.userid
          { fold_range := rgp.range, passive_range := NOTHING,
            aggressive_range := NOTHING, raise_total := 0 } res now).1
        = match timeout g res now with
          | some g2 => [g2]
          | none => [record_timeoout g rgp.userid] := by
  have hgu : g.current_userid = some rgp.userid := current_rgp_userid g rgp hrgp
  have htime : timeout g res now
      = (perform_action_inner (record_timeoout g rgp.userid) rgp
          { fold_range := rgp.range, passive_range := NOTHING,
            aggressive_range := NOTHING, raise_total := 0 }
          (calculate_current_options g rgp) res now).map (fun p => p.1) := by
    unfold timeout
    rw [hrgp]
  refine ⟨?_, fits_fold_everything _ _, htime, ?_⟩
  · cases ht : timeout g res now <;>
      simp [process_timeouts, hdue, ht]
  · have hfind : find_game [record_timeoout g rgp.userid] g.gameid
        = some (record_timeoout g rgp.userid) := by
      simp [find_game, record_timeoout, record_hand_history_item]
    have hcur : (record_timeoout g rgp.userid).current_userid
        = some rgp.userid := hgu
    have hcrgp : current_rgp (record_timeoout g rgp.userid) = some rgp := hrgp
    have hopts : calculate_current_options (record_timeoout g rgp.userid) rgp
        = calculate_current_options g rgp := rfl
    simp only [perform_action]
    rw [hfind]
    simp only [hcur, if_pos]
    rw [hcrgp]
    simp only [hopts, fits_fold_everything, if_pos]
    rw [htime]
    cases hpi : perform_action_inner (record_timeoout g rgp.userid) rgp
        { fold_range := rgp.range, passive_range := NOTHING,
          aggressive_range := NOTHING, raise_total := 0 }
        (calculate_current_options g rgp) res now with
    | none => rfl
    | some p =>
      obtain ⟨g2, ar⟩ := p
      have hid : g2.gameid = g.gameid := by
        have hrec := perform_action_inner_gameid (record_timeoout g rgp.userid)
          rgp _ _ res now g2 ar hpi
        simpa [record_timeoout, record_hand_history_item] using hrec
      simp [store_game, hid, record_timeoout, record_hand_history_item]

/-- Witness resolver for C8: always resolves to a fold with no remaining
range. -/
def exResolver : Resolver := fun _ _ _ _ => (exFold, [])

/-- Witness for C8 at a concrete game: the synthesized fold-everything
action for the timed-out button passes the validator. -/
theorem c8_timeout_folds_whole_range_witness :
    range_action_fits
      { fold_range := exBTN.range, passive_range := NOTHING,
        aggressive_range := NOTHING, raise_total := 0 }
      (calculate_current_options exGame exBTN) exBTN.range = true :=
  (c8_timeout_folds_whole_range exGame exBTN exResolver 10
    (by decide) (by decide)).2.1

end RVR
